import Mathlib

/-!
Verification of the protocol decoder / session-state tracker in
`src/dhjc_core.rs` (functions `CoreState::process_line`,
`CoreState::update_total_from_live`, `CoreState::reset_session`,
`find_int_after`, `find_double_after`).

Modelling conventions of the shallow embedding:

* A text line is a `List Char`.  The Rust code iterates `raw.bytes()` and
  pushes each kept byte as one `char` (Latin-1, no multi-byte decoding);
  here each such byte is one `Char`, which coincides with the code on all
  single-byte (ASCII / Latin-1) input.
* Rust `i32` is modelled as `Int`; `str::parse::<i32>` is modelled by
  `parseI32`, which fails outside the 32-bit two's-complement range exactly
  as the Rust parser does.
* Rust `f64` is modelled by `ℚ` with exact arithmetic: the decimal literals
  the extractor can capture, and the operations `+` and `/ 1000` applied to
  them, are given their exact rational values.  `str::parse::<f64>` is
  modelled by `parseF64`, which succeeds on exactly the literal shapes the
  Rust float grammar accepts for sign/digit/dot strings (at least one
  digit, at most one dot).
* `Local::now()` is a side effect in the code; the formatted timestamp
  string is passed to `process_line` as an explicit `now` argument.
-/

abbrev Str := List Char

/-- The set accepted by Rust `char::is_whitespace` (Unicode `White_Space`),
used by `str::trim`. -/
def rustWS (c : Char) : Bool :=
  [9, 10, 11, 12, 13, 32, 133, 160, 5760, 8192, 8193, 8194, 8195, 8196,
   8197, 8198, 8199, 8200, 8201, 8202, 8232, 8233, 8239, 8287, 12288].contains c.toNat

/-- `str::trim`: drop whitespace from both ends. -/
def trimStr (l : Str) : Str :=
  ((l.dropWhile rustWS).reverse.dropWhile rustWS).reverse

/-- The sanitizing loop at the top of `process_line`: keep only TAB and
bytes `>= 0x20`, then trim. -/
def sanitize (raw : Str) : Str :=
  trimStr (raw.filter (fun c => c == '\t' || decide (32 ≤ c.toNat)))

/-- `str::find` for a literal pattern: index of the first occurrence of
`pat` in `l`, if any. -/
def findSub : Str → Str → Option Nat
  | [], pat => if pat.isPrefixOf ([] : Str) then some 0 else none
  | c :: t, pat =>
      if pat.isPrefixOf (c :: t) then some 0
      else (findSub t pat).map (fun n => n + 1)

/-- `str::contains` for a literal pattern. -/
def strContains (l pat : Str) : Bool :=
  (findSub l pat).isSome

/-- The character-scanning loop of `find_int_after`: `started = false`
skips filler until a digit or a sign starts the literal; once started,
digits are consumed and the first non-digit breaks the loop. -/
def scanInt : Bool → Str → Str
  | _, [] => []
  | true, c :: t => if c.isDigit then c :: scanInt true t else []
  | false, c :: t =>
      if c.isDigit || c == '+' || c == '-' then c :: scanInt true t
      else scanInt false t

/-- The character-scanning loop of `find_double_after`: like `scanInt`,
with `.` additionally accepted both as a starting and as a continuing
character. -/
def scanFloat : Bool → Str → Str
  | _, [] => []
  | true, c :: t => if c.isDigit || c == '.' then c :: scanFloat true t else []
  | false, c :: t =>
      if c.isDigit || c == '.' || c == '+' || c == '-' then c :: scanFloat true t
      else scanFloat false t

/-- Value of a digit string. -/
def natVal (ds : Str) : Nat :=
  List.foldl (fun a c => a * 10 + (c.toNat - 48)) 0 ds

/-- `str::parse::<i32>().ok()`: optional single leading sign, at least one
digit, value within the `i32` range. -/
def parseI32 (s : Str) : Option Int :=
  let sg : Int := match s with
    | '-' :: _ => -1
    | _ => 1
  let ds : Str := match s with
    | '+' :: t => t
    | '-' :: t => t
    | t => t
  if ds.isEmpty || !ds.all Char.isDigit then none
  else
    let v : Int := sg * (natVal ds : Int)
    if -(2 ^ 31) ≤ v ∧ v ≤ 2 ^ 31 - 1 then some v else none

/-- `str::parse::<f64>().ok()` restricted to sign/digit/dot strings (the
only shapes the scanner can capture): succeeds iff after the optional
single leading sign the rest is digits and dots with at least one digit
and at most one dot; the value is the exact rational value of the decimal
literal. -/
def parseF64 (s : Str) : Option ℚ :=
  let sg : ℚ := match s with
    | '-' :: _ => -1
    | _ => 1
  let body : Str := match s with
    | '+' :: t => t
    | '-' :: t => t
    | t => t
  if body.any Char.isDigit && decide (body.count '.' ≤ 1)
      && body.all (fun c => c.isDigit || c == '.') then
    let ip : Str := body.takeWhile (fun c => c != '.')
    let fp : Str := (body.dropWhile (fun c => c != '.')).drop 1
    some (sg * ((natVal ip : ℚ) + (natVal fp : ℚ) / (10 : ℚ) ^ fp.length))
  else none

/-- `find_int_after` from `src/dhjc_core.rs`. -/
def find_int_after (src key : Str) : Option Int :=
  match findSub src key with
  | none => none
  | some idx =>
      let s := scanInt false (src.drop (idx + key.length))
      if s.isEmpty then none else parseI32 s

/-- `find_double_after` from `src/dhjc_core.rs`. -/
def find_double_after (src key : Str) : Option ℚ :=
  match findSub src key with
  | none => none
  | some idx =>
      let s := scanFloat false (src.drop (idx + key.length))
      if s.isEmpty then none else parseF64 s

/-- `struct CoreState` from `src/dhjc_core.rs`. -/
structure CoreState where
  stage : Int
  current_total : Int
  active_time_s : ℚ
  last_timestamp : Option Str
  active_from_mcu : Bool
deriving DecidableEq

/-- `struct Change` from `src/dhjc_core.rs` (`#[derive(Default)]`: all
flags start `false`). -/
structure Change where
  system_reset : Bool := false
  stage_changed : Bool := false
  active_changed : Bool := false
  total_changed : Bool := false
  session_reset : Bool := false
deriving DecidableEq

/-- `CoreState::new`. -/
def CoreState.new : CoreState :=
  { stage := 0, current_total := 0, active_time_s := 0,
    last_timestamp := none, active_from_mcu := false }

/-- `CoreState::reset_session`. -/
def reset_session (_s : CoreState) : CoreState :=
  { current_total := 0, stage := 0, active_time_s := 0,
    active_from_mcu := false, last_timestamp := none }

/-- `CoreState::update_total_from_live`; `now` is the formatted
`Local::now()` timestamp. -/
def update_total_from_live (s : CoreState) (new_total : Int) (now : Str)
    (ch : Change) : CoreState × Change :=
  if new_total < s.current_total then
    ({ reset_session s with current_total := new_total },
     { ch with session_reset := true, total_changed := true })
  else if new_total > s.current_total then
    ({ s with current_total := new_total, last_timestamp := some now },
     { ch with total_changed := true })
  else
    (s, ch)

def resetMarker : Str := ("SYSTEM RESET OK").toList

def liveMarker : Str := ("[Live]").toList

def liveMarkerUpper : Str := ("[LIVE]").toList

def stageKey : Str := ("Stage:").toList

def totalKey : Str := ("Total:").toList

def durationKey : Str := ("Duration").toList

def activeTimeKey : Str := ("Active Time").toList

def grandTotalKey : Str := ("Grand Total").toList

/-- The `[Live]` branch of `process_line`: `Stage:` first (update `stage`
and flag only when the value differs), then `Total:` fed to
`update_total_from_live`. -/
def liveBranch (s : CoreState) (now clean : Str) : CoreState × Change :=
  let sc : CoreState × Change :=
    match find_int_after clean stageKey with
    | some stg =>
        if stg ≠ s.stage then
          ({ s with stage := stg }, { stage_changed := true })
        else (s, {})
    | none => (s, {})
  match find_int_after clean totalKey with
  | some total => update_total_from_live sc.1 total now sc.2
  | none => sc

/-- The non-live branch of `process_line`: `Duration` (add ms/1000) first,
else `Active Time` (overwrite); then `Grand Total` fed to
`update_total_from_live`. -/
def reportBranch (s : CoreState) (now clean : Str) : CoreState × Change :=
  let sa : CoreState × Bool :=
    match find_double_after clean durationKey with
    | some dur_ms =>
        ({ s with active_time_s := s.active_time_s + dur_ms / 1000,
                  active_from_mcu := false }, true)
    | none =>
        match find_double_after clean activeTimeKey with
        | some at_s =>
            ({ s with active_time_s := at_s, active_from_mcu := true }, true)
        | none => (s, false)
  let ch : Change := if sa.2 then { active_changed := true } else {}
  match find_int_after clean grandTotalKey with
  | some gt => update_total_from_live sa.1 gt now ch
  | none => (sa.1, ch)

/-- `CoreState::process_line`: sanitize, then classify in priority order
(empty / reset marker / live / report). -/
def process_line (s : CoreState) (now : Str) (raw : Str) : CoreState × Change :=
  let clean := sanitize raw
  if clean.isEmpty then (s, {})
  else if strContains clean resetMarker then
    (reset_session s, { system_reset := true, session_reset := true })
  else if strContains clean liveMarker || strContains clean liveMarkerUpper then
    liveBranch s now clean
  else
    reportBranch s now clean

/-- Feeding a list of raw lines to the decoder, one `process_line` call
per line, keeping the state. -/
def runLines (now : Str) (s : CoreState) (lines : List Str) : CoreState :=
  List.foldl (fun st l => (process_line st now l).1) s lines

/-! ### Helper lemmas -/

theorem strContains_nil {pat : Str} (h : pat ≠ []) : strContains [] pat = false := by
  cases pat with
  | nil => exact absurd rfl h
  | cons c t => rfl

theorem isEmpty_false_of_contains {l pat : Str} (hp : pat ≠ [])
    (h : strContains l pat = true) : l.isEmpty = false := by
  cases l with
  | nil => rw [strContains_nil hp] at h; exact absurd h (by decide)
  | cons c t => rfl

theorem find_int_after_nil {key : Str} (h : key ≠ []) :
    find_int_after [] key = none := by
  cases key with
  | nil => exact absurd rfl h
  | cons c t => rfl

theorem find_double_after_nil {key : Str} (h : key ≠ []) :
    find_double_after [] key = none := by
  cases key with
  | nil => exact absurd rfl h
  | cons c t => rfl

theorem isEmpty_false_of_int_some {l key : Str} {v : Int} (hk : key ≠ [])
    (h : find_int_after l key = some v) : l.isEmpty = false := by
  cases l with
  | nil => rw [find_int_after_nil hk] at h; exact Option.noConfusion h
  | cons c t => rfl

theorem isEmpty_false_of_double_some {l key : Str} {v : ℚ} (hk : key ≠ [])
    (h : find_double_after l key = some v) : l.isEmpty = false := by
  cases l with
  | nil => rw [find_double_after_nil hk] at h; exact Option.noConfusion h
  | cons c t => rfl

theorem process_line_eq_live (s : CoreState) (now raw : Str)
    (hres : strContains (sanitize raw) resetMarker = false)
    (hlive : (strContains (sanitize raw) liveMarker
              || strContains (sanitize raw) liveMarkerUpper) = true) :
    process_line s now raw = liveBranch s now (sanitize raw) := by
  have hne : (sanitize raw).isEmpty = false := by
    rcases Bool.or_eq_true_iff.mp hlive with h | h
    · exact isEmpty_false_of_contains (by decide) h
    · exact isEmpty_false_of_contains (by decide) h
  simp [process_line, hne, hres, hlive]

theorem process_line_eq_report (s : CoreState) (now raw : Str)
    (hne : (sanitize raw).isEmpty = false)
    (hres : strContains (sanitize raw) resetMarker = false)
    (hlive : (strContains (sanitize raw) liveMarker
              || strContains (sanitize raw) liveMarkerUpper) = false) :
    process_line s now raw = reportBranch s now (sanitize raw) := by
  simp [process_line, hne, hres, hlive]

/-! ### C2: total-update trichotomy -/

/-- Claim C2: the total-update algorithm is a trichotomy on
`new_total` versus `cumulative_total`: below → full reset reseeded with
`new_total`, `session_reset` and `total_changed` set, timestamp not set;
above → `cumulative_total := new_total`, timestamp set to now,
`total_changed` set; equal → no-op, no flags. -/
theorem update_total_trichotomy (s : CoreState) (t : Int) (now : Str) (ch : Change) :
    (t < s.current_total →
      update_total_from_live s t now ch =
        ({ stage := 0, current_total := t, active_time_s := 0,
           last_timestamp := none, active_from_mcu := false },
         { ch with session_reset := true, total_changed := true })) ∧
    (s.current_total < t →
      update_total_from_live s t now ch =
        ({ s with current_total := t, last_timestamp := some now },
         { ch with total_changed := true })) ∧
    (t = s.current_total →
      update_total_from_live s t now ch = (s, ch)) := by
  refine ⟨fun h => ?_, fun h => ?_, fun h => ?_⟩
  · rw [update_total_from_live, if_pos h]
    rfl
  · rw [update_total_from_live, if_neg (by omega), if_pos h]
  · rw [update_total_from_live, if_neg (by omega), if_neg (by omega)]

/-- Witness for C2: the three branches at concrete inputs
(current total 5; new totals 3, 9, 5). -/
theorem update_total_trichotomy_witness :
    ((3 : Int) < (5 : Int) ∧
      update_total_from_live ⟨1, 5, 2, none, true⟩ 3 [] {} =
        ({ stage := 0, current_total := 3, active_time_s := 0,
           last_timestamp := none, active_from_mcu := false },
         { session_reset := true, total_changed := true })) ∧
    ((5 : Int) < (9 : Int) ∧
      update_total_from_live ⟨1, 5, 2, none, true⟩ 9 [] {} =
        (⟨1, 9, 2, some [], true⟩,
         { total_changed := true })) ∧
    update_total_from_live ⟨1, 5, 2, none, true⟩ 5 [] {} =
      (⟨1, 5, 2, none, true⟩, {}) :=
  ⟨⟨by decide, (update_total_trichotomy ⟨1, 5, 2, none, true⟩ 3 [] {}).1 (by decide)⟩,
   ⟨by decide, (update_total_trichotomy ⟨1, 5, 2, none, true⟩ 9 [] {}).2.1 (by decide)⟩,
   (update_total_trichotomy ⟨1, 5, 2, none, true⟩ 5 [] {}).2.2 rfl⟩

/-! ### C8: reset-acknowledgement marker -/

/-- Claim C8: a line containing the reset-acknowledgement marker restores
every `CoreState` field to its initial value and returns a change summary
with exactly `system_reset` and `session_reset` set, whatever the prior
state; no later classification rule contributes. -/
theorem reset_marker_full_reset (s : CoreState) (now raw : Str)
    (h : strContains (sanitize raw) resetMarker = true) :
    process_line s now raw =
      ({ stage := 0, current_total := 0, active_time_s := 0,
         last_timestamp := none, active_from_mcu := false },
       { system_reset := true, session_reset := true }) := by
  have hne : (sanitize raw).isEmpty = false :=
    isEmpty_false_of_contains (by decide) h
  simp [process_line, hne, h, reset_session]

/-- Witness for C8 at a concrete prior state and line. -/
theorem reset_marker_full_reset_witness :
    process_line ⟨7, 9, 3, some [], true⟩ [] (("ok SYSTEM RESET OK done").toList) =
      ({ stage := 0, current_total := 0, active_time_s := 0,
         last_timestamp := none, active_from_mcu := false },
       { system_reset := true, session_reset := true }) :=
  reset_marker_full_reset ⟨7, 9, 3, some [], true⟩ [] (("ok SYSTEM RESET OK done").toList)
    (by decide)

/-! ### C9: totality and the no-match frame -/

/-- Claim C9: `process_line` is total by construction; a line that
sanitizes to the empty string, and a line matching no rule (no reset
marker, no live marker, no `Duration`, `Active Time` or `Grand Total`
value), leave the state completely unchanged and return the all-false
change summary. -/
theorem process_line_no_match (s : CoreState) (now raw : Str) :
    ((sanitize raw).isEmpty = true → process_line s now raw = (s, {})) ∧
    (strContains (sanitize raw) resetMarker = false →
     (strContains (sanitize raw) liveMarker
       || strContains (sanitize raw) liveMarkerUpper) = false →
     find_double_after (sanitize raw) durationKey = none →
     find_double_after (sanitize raw) activeTimeKey = none →
     find_int_after (sanitize raw) grandTotalKey = none →
     process_line s now raw = (s, {})) := by
  constructor
  · intro h
    simp [process_line, h]
  · intro hres hlive hdur hat hgt
    by_cases hne : (sanitize raw).isEmpty = true
    · simp [process_line, hne]
    · rw [process_line_eq_report s now raw (Bool.not_eq_true _ ▸ hne) hres hlive]
      simp [reportBranch, hdur, hat, hgt]

/-- Witness for C9: a line of control bytes and blanks that sanitizes to
empty, and an ordinary unrecognized line. -/
theorem process_line_no_match_witness :
    process_line ⟨4, 6, 2, none, true⟩ [] ([Char.ofNat 7, ' ', Char.ofNat 1, ' ']) =
      (⟨4, 6, 2, none, true⟩, {}) ∧
    process_line ⟨4, 6, 2, none, true⟩ [] (("hello world 42").toList) =
      (⟨4, 6, 2, none, true⟩, {}) :=
  ⟨(process_line_no_match ⟨4, 6, 2, none, true⟩ [] _).1 (by decide),
   (process_line_no_match ⟨4, 6, 2, none, true⟩ [] _).2 (by decide) (by decide)
     (by decide) (by decide) (by decide)⟩

/-! ### C5: `Total:` versus `Grand Total` -/

/-- Counterexample to C5 as stated: substituting the keyword
`Grand Total` for `Total:` in the otherwise-identical line does NOT yield
an identical resulting state.  From the initial state, a non-live line
recognizes only `Grand Total` (total becomes 5) while the substituted
`Total:` line is ignored (total stays 0): `Total:` is only consulted on
live lines. -/
theorem total_keyword_subst_counterexample :
    (process_line CoreState.new [] (("Grand Total 5").toList)).1.current_total = 5 ∧
    (process_line CoreState.new [] (("Total: 5").toList)).1.current_total = 0 := by
  constructor
  · with_unfolding_all rfl
  · with_unfolding_all rfl

/-- Claim C5 (amended): both keywords feed the identical total-update
algorithm, but `Total:` is recognized only on live lines and
`Grand Total` only on non-live lines; for every value n, every prior
state, every live line from which `Total:` extracts n (and nothing else
is recognized — no reset marker, no `Stage:` value) and every non-live
line from which `Grand Total` extracts n (and nothing else is
recognized — no reset marker, no `Duration` or `Active Time` value),
the two lines produce the identical resulting state and change
summary. -/
theorem total_keyword_shared_semantics (s : CoreState) (now l1 l2 : Str) (n : Int)
    (h1res : strContains (sanitize l1) resetMarker = false)
    (h1live : (strContains (sanitize l1) liveMarker
               || strContains (sanitize l1) liveMarkerUpper) = true)
    (h1stage : find_int_after (sanitize l1) stageKey = none)
    (h1total : find_int_after (sanitize l1) totalKey = some n)
    (h2res : strContains (sanitize l2) resetMarker = false)
    (h2live : (strContains (sanitize l2) liveMarker
               || strContains (sanitize l2) liveMarkerUpper) = false)
    (h2dur : find_double_after (sanitize l2) durationKey = none)
    (h2at : find_double_after (sanitize l2) activeTimeKey = none)
    (h2gt : find_int_after (sanitize l2) grandTotalKey = some n) :
    process_line s now l1 = process_line s now l2 := by
  have hne2 : (sanitize l2).isEmpty = false :=
    isEmpty_false_of_int_some (by decide) h2gt
  rw [process_line_eq_live s now l1 h1res h1live,
      process_line_eq_report s now l2 hne2 h2res h2live]
  unfold liveBranch reportBranch
  rw [h1stage, h1total, h2dur, h2at, h2gt]
  rfl

/-- Witness for C5 (amended): the concrete pair `[Live] Total: 7` and
`Grand Total 7`, agreeing from an arbitrary concrete prior state. -/
theorem total_keyword_shared_semantics_witness :
    process_line ⟨3, 2, 1, some [], true⟩ (("TS").toList) (("[Live] Total: 7").toList) =
    process_line ⟨3, 2, 1, some [], true⟩ (("TS").toList) (("Grand Total 7").toList) :=
  total_keyword_shared_semantics ⟨3, 2, 1, some [], true⟩ (("TS").toList)
    (("[Live] Total: 7").toList) (("Grand Total 7").toList) 7
    (by decide) (by decide) (by decide) (by decide)
    (by decide) (by decide) (by decide) (by decide) (by decide)

/-! ### C1: stage update clobbered by rollback on the same live line -/

/-- Claim C1: on any live line whose extracted `Total:` value is below the
current cumulative total, the stage update from the same line happens
first and is then clobbered by the rollback reset: the final state has
`stage = 0` and `current_total` equal to the extracted value, with
`session_reset` and `total_changed` reported. -/
theorem live_rollback_clobbers_stage (s : CoreState) (now raw : Str) (t : Int)
    (hres : strContains (sanitize raw) resetMarker = false)
    (hlive : (strContains (sanitize raw) liveMarker
              || strContains (sanitize raw) liveMarkerUpper) = true)
    (htot : find_int_after (sanitize raw) totalKey = some t)
    (hlt : t < s.current_total) :
    (process_line s now raw).1.stage = 0 ∧
    (process_line s now raw).1.current_total = t ∧
    (process_line s now raw).2.session_reset = true ∧
    (process_line s now raw).2.total_changed = true := by
  rw [process_line_eq_live s now raw hres hlive]
  unfold liveBranch
  rw [htot]
  cases hstg : find_int_after (sanitize raw) stageKey with
  | none =>
      simp only
      rw [update_total_from_live, if_pos hlt]
      exact ⟨rfl, rfl, rfl, rfl⟩
  | some stg =>
      simp only
      by_cases hd : stg ≠ s.stage
      · rw [if_pos hd]
        have hlt2 : t < (({ s with stage := stg } : CoreState)).current_total := hlt
        rw [update_total_from_live, if_pos hlt2]
        exact ⟨rfl, rfl, rfl, rfl⟩
      · rw [if_neg hd]
        rw [update_total_from_live, if_pos hlt]
        exact ⟨rfl, rfl, rfl, rfl⟩

/-- Witness for C1: the spec scenario — from `stage = 1, total = 5`,
the line `[Live] Stage: 1 Total: 3` ends with `stage = 0`,
`current_total = 3`, `session_reset` and `total_changed`. -/
theorem live_rollback_clobbers_stage_witness :
    (process_line ⟨1, 5, 0, none, false⟩ [] (("[Live] Stage: 1 Total: 3").toList)).1.stage = 0 ∧
    (process_line ⟨1, 5, 0, none, false⟩ [] (("[Live] Stage: 1 Total: 3").toList)).1.current_total = 3 ∧
    (process_line ⟨1, 5, 0, none, false⟩ [] (("[Live] Stage: 1 Total: 3").toList)).2.session_reset = true ∧
    (process_line ⟨1, 5, 0, none, false⟩ [] (("[Live] Stage: 1 Total: 3").toList)).2.total_changed = true :=
  live_rollback_clobbers_stage ⟨1, 5, 0, none, false⟩ [] (("[Live] Stage: 1 Total: 3").toList) 3
    (by decide) (by decide) (by decide) (by decide)

/-! ### C6: Duration first, else Active Time, on non-live lines -/

/-- Claim C6: on a non-live line (here with no `Grand Total` value, which
rule 4c would apply afterwards), the `Duration` rule is tried first: a
found value is divided by 1000 and added to `active_time_seconds`, with
provenance `Derived` (`active_from_mcu = false`); only when no `Duration`
value exists is `Active Time` tried, and a found value overwrites
`active_time_seconds` with provenance `DeviceReported`
(`active_from_mcu = true`); in both cases `active_changed` is reported,
and the two rules are mutually exclusive on a single line. -/
theorem duration_first_active_time_else (s : CoreState) (now raw : Str)
    (hres : strContains (sanitize raw) resetMarker = false)
    (hlive : (strContains (sanitize raw) liveMarker
              || strContains (sanitize raw) liveMarkerUpper) = false)
    (hgt : find_int_after (sanitize raw) grandTotalKey = none) :
    (∀ d : ℚ, find_double_after (sanitize raw) durationKey = some d →
      (process_line s now raw).1.active_time_s = s.active_time_s + d / 1000 ∧
      (process_line s now raw).1.active_from_mcu = false ∧
      (process_line s now raw).2.active_changed = true) ∧
    (find_double_after (sanitize raw) durationKey = none →
     ∀ a : ℚ, find_double_after (sanitize raw) activeTimeKey = some a →
      (process_line s now raw).1.active_time_s = a ∧
      (process_line s now raw).1.active_from_mcu = true ∧
      (process_line s now raw).2.active_changed = true) := by
  constructor
  · intro d hd
    have hne : (sanitize raw).isEmpty = false :=
      isEmpty_false_of_double_some (by decide) hd
    rw [process_line_eq_report s now raw hne hres hlive]
    simp [reportBranch, hd, hgt]
  · intro hd a ha
    have hne : (sanitize raw).isEmpty = false :=
      isEmpty_false_of_double_some (by decide) ha
    rw [process_line_eq_report s now raw hne hres hlive]
    simp [reportBranch, hd, ha, hgt]

/-- Witness for C6: `Duration: 1500` adds 1.5 s to the accumulated 1 s;
`Active Time: 12.5` overwrites it. -/
theorem duration_first_active_time_else_witness :
    ((process_line ⟨0, 0, 1, none, false⟩ [] (("Duration: 1500").toList)).1.active_time_s =
        1 + 1500 / 1000 ∧
     (process_line ⟨0, 0, 1, none, false⟩ [] (("Duration: 1500").toList)).1.active_from_mcu =
        false ∧
     (process_line ⟨0, 0, 1, none, false⟩ [] (("Duration: 1500").toList)).2.active_changed =
        true) ∧
    ((process_line ⟨0, 0, 1, none, false⟩ [] (("Active Time: 12.5").toList)).1.active_time_s =
        25 / 2 ∧
     (process_line ⟨0, 0, 1, none, false⟩ [] (("Active Time: 12.5").toList)).1.active_from_mcu =
        true ∧
     (process_line ⟨0, 0, 1, none, false⟩ [] (("Active Time: 12.5").toList)).2.active_changed =
        true) :=
  ⟨(duration_first_active_time_else ⟨0, 0, 1, none, false⟩ [] (("Duration: 1500").toList)
      (by decide) (by decide) (by decide)).1 1500 (by with_unfolding_all rfl),
   (duration_first_active_time_else ⟨0, 0, 1, none, false⟩ [] (("Active Time: 12.5").toList)
      (by decide) (by decide) (by decide)).2 (by with_unfolding_all rfl) (25 / 2)
      (by with_unfolding_all rfl)⟩

/-! ### C10: Duration added, then zeroed by a Grand-Total rollback -/

/-- Claim C10: on a non-live line carrying both a `Duration` value and a
`Grand Total` value below the current cumulative total, the Duration
contribution is applied first and then zeroed by the rollback reset: the
final state has `active_time_seconds = 0` and `current_total` equal to
the extracted grand total, while the change summary still reports
`active_changed` together with `session_reset` and `total_changed`. -/
theorem duration_then_rollback_zeroes_active (s : CoreState) (now raw : Str)
    (d : ℚ) (g : Int)
    (hres : strContains (sanitize raw) resetMarker = false)
    (hlive : (strContains (sanitize raw) liveMarker
              || strContains (sanitize raw) liveMarkerUpper) = false)
    (hdur : find_double_after (sanitize raw) durationKey = some d)
    (hgt : find_int_after (sanitize raw) grandTotalKey = some g)
    (hlt : g < s.current_total) :
    (process_line s now raw).1.active_time_s = 0 ∧
    (process_line s now raw).1.current_total = g ∧
    (process_line s now raw).2.active_changed = true ∧
    (process_line s now raw).2.session_reset = true ∧
    (process_line s now raw).2.total_changed = true := by
  have hne : (sanitize raw).isEmpty = false :=
    isEmpty_false_of_double_some (by decide) hdur
  rw [process_line_eq_report s now raw hne hres hlive]
  simp only [reportBranch, hdur, hgt]
  have hlt2 : g < (({ s with
      active_time_s := s.active_time_s + d / 1000,
      active_from_mcu := false } : CoreState)).current_total := hlt
  rw [update_total_from_live, if_pos hlt2]
  exact ⟨rfl, rfl, rfl, rfl, rfl⟩

/-- Witness for C10: from total 10, the line
`Duration: 500 Grand Total: 3` leaves zero active time, total 3, and all
three flags. -/
theorem duration_then_rollback_zeroes_active_witness :
    (process_line ⟨2, 10, 1, none, false⟩ [] (("Duration: 500 Grand Total: 3").toList)).1.active_time_s = 0 ∧
    (process_line ⟨2, 10, 1, none, false⟩ [] (("Duration: 500 Grand Total: 3").toList)).1.current_total = 3 ∧
    (process_line ⟨2, 10, 1, none, false⟩ [] (("Duration: 500 Grand Total: 3").toList)).2.active_changed = true ∧
    (process_line ⟨2, 10, 1, none, false⟩ [] (("Duration: 500 Grand Total: 3").toList)).2.session_reset = true ∧
    (process_line ⟨2, 10, 1, none, false⟩ [] (("Duration: 500 Grand Total: 3").toList)).2.total_changed = true :=
  duration_then_rollback_zeroes_active ⟨2, 10, 1, none, false⟩ []
    (("Duration: 500 Grand Total: 3").toList) 500 3
    (by decide) (by decide) (by with_unfolding_all rfl) (by decide) (by decide)

/-! ### C7: live lines never evaluate the non-live rules -/

/-- Counterexample to C7 as stated: on a live rollback line the
active-time fields are NOT left unchanged — the rollback reset fired by
the `Total:` value zeroes them.  From `active_time_s = 5` (device
reported) and total 10, the line `[Live] Total: 3` ends with
`active_time_s = 0` and `active_from_mcu = false`. -/
theorem live_frame_counterexample :
    (process_line ⟨0, 10, 5, none, true⟩ [] (("[Live] Total: 3").toList)).1.active_time_s = 0 ∧
    (process_line ⟨0, 10, 5, none, true⟩ [] (("[Live] Total: 3").toList)).1.active_from_mcu = false ∧
    ¬ ((0 : ℚ) = 5) := by
  refine ⟨by with_unfolding_all rfl, by with_unfolding_all rfl, by norm_num⟩

/-- Claim C7 (amended): a live line never evaluates the non-live rules
(rule 4).  Unless the `Total:` value on the line triggers a rollback
reset, `active_time_s` and its provenance are unchanged and
`active_changed` is never reported; and when no `Total:` value is
extracted, the total, timestamp and all total-related flags are likewise
untouched even if the line textually contains `Duration`, `Active Time`
or `Grand Total` (rule 4c is never consulted: `Grand Total` alone, with
no `Total:` occurrence, cannot reach the total-update algorithm). -/
theorem live_skips_report_rules (s : CoreState) (now raw : Str)
    (hres : strContains (sanitize raw) resetMarker = false)
    (hlive : (strContains (sanitize raw) liveMarker
              || strContains (sanitize raw) liveMarkerUpper) = true) :
    ((∀ t : Int, find_int_after (sanitize raw) totalKey = some t →
        s.current_total ≤ t) →
      (process_line s now raw).1.active_time_s = s.active_time_s ∧
      (process_line s now raw).1.active_from_mcu = s.active_from_mcu ∧
      (process_line s now raw).2.active_changed = false ∧
      (process_line s now raw).2.session_reset = false) ∧
    (find_int_after (sanitize raw) totalKey = none →
      (process_line s now raw).1.current_total = s.current_total ∧
      (process_line s now raw).1.last_timestamp = s.last_timestamp ∧
      (process_line s now raw).1.active_time_s = s.active_time_s ∧
      (process_line s now raw).2.total_changed = false ∧
      (process_line s now raw).2.session_reset = false ∧
      (process_line s now raw).2.active_changed = false) := by
  rw [process_line_eq_live s now raw hres hlive]
  unfold liveBranch
  constructor
  · intro hmono
    cases hstg : find_int_after (sanitize raw) stageKey with
    | none =>
        simp only
        cases htot : find_int_after (sanitize raw) totalKey with
        | none => exact ⟨rfl, rfl, rfl, rfl⟩
        | some t =>
            simp only
            rw [update_total_from_live, if_neg (by have := hmono t htot; omega)]
            by_cases hgt : t > s.current_total
            · rw [if_pos hgt]; exact ⟨rfl, rfl, rfl, rfl⟩
            · rw [if_neg hgt]; exact ⟨rfl, rfl, rfl, rfl⟩
    | some stg =>
        simp only
        by_cases hd : stg ≠ s.stage
        · rw [if_pos hd]
          cases htot : find_int_after (sanitize raw) totalKey with
          | none => exact ⟨rfl, rfl, rfl, rfl⟩
          | some t =>
              simp only
              rw [update_total_from_live,
                  if_neg (show ¬ t < (({ s with stage := stg } : CoreState)).current_total by
                    have := hmono t htot; simp only; omega)]
              by_cases hgt : t > (({ s with stage := stg } : CoreState)).current_total
              · rw [if_pos hgt]; exact ⟨rfl, rfl, rfl, rfl⟩
              · rw [if_neg hgt]; exact ⟨rfl, rfl, rfl, rfl⟩
        · rw [if_neg hd]
          cases htot : find_int_after (sanitize raw) totalKey with
          | none => exact ⟨rfl, rfl, rfl, rfl⟩
          | some t =>
              simp only
              rw [update_total_from_live, if_neg (by have := hmono t htot; omega)]
              by_cases hgt : t > s.current_total
              · rw [if_pos hgt]; exact ⟨rfl, rfl, rfl, rfl⟩
              · rw [if_neg hgt]; exact ⟨rfl, rfl, rfl, rfl⟩
  · intro htot
    rw [htot]
    cases hstg : find_int_after (sanitize raw) stageKey with
    | none => exact ⟨rfl, rfl, rfl, rfl, rfl, rfl⟩
    | some stg =>
        simp only
        by_cases hd : stg ≠ s.stage
        · rw [if_pos hd]; exact ⟨rfl, rfl, rfl, rfl, rfl, rfl⟩
        · rw [if_neg hd]; exact ⟨rfl, rfl, rfl, rfl, rfl, rfl⟩

/-- Witness for C7: an increasing live line (total 5 → 9) leaves the
active-time fields alone; a live line textually containing `Duration`
and `Grand Total` but no `Total:` leaves everything alone. -/
theorem live_skips_report_rules_witness :
    ((process_line ⟨0, 5, 2, none, true⟩ [] (("[Live] Stage: 2 Total: 9").toList)).1.active_time_s = 2 ∧
     (process_line ⟨0, 5, 2, none, true⟩ [] (("[Live] Stage: 2 Total: 9").toList)).1.active_from_mcu = true ∧
     (process_line ⟨0, 5, 2, none, true⟩ [] (("[Live] Stage: 2 Total: 9").toList)).2.active_changed = false ∧
     (process_line ⟨0, 5, 2, none, true⟩ [] (("[Live] Stage: 2 Total: 9").toList)).2.session_reset = false) ∧
    ((process_line ⟨0, 5, 2, none, true⟩ [] (("[Live] Duration 500 Grand Total 9").toList)).1.current_total = 5 ∧
     (process_line ⟨0, 5, 2, none, true⟩ [] (("[Live] Duration 500 Grand Total 9").toList)).1.last_timestamp = none ∧
     (process_line ⟨0, 5, 2, none, true⟩ [] (("[Live] Duration 500 Grand Total 9").toList)).1.active_time_s = 2 ∧
     (process_line ⟨0, 5, 2, none, true⟩ [] (("[Live] Duration 500 Grand Total 9").toList)).2.total_changed = false ∧
     (process_line ⟨0, 5, 2, none, true⟩ [] (("[Live] Duration 500 Grand Total 9").toList)).2.session_reset = false ∧
     (process_line ⟨0, 5, 2, none, true⟩ [] (("[Live] Duration 500 Grand Total 9").toList)).2.active_changed = false) :=
  ⟨(live_skips_report_rules ⟨0, 5, 2, none, true⟩ [] (("[Live] Stage: 2 Total: 9").toList)
      (by decide) (by decide)).1
      (by intro t ht
          rw [show find_int_after (sanitize (("[Live] Stage: 2 Total: 9").toList)) totalKey =
                some 9 from by decide] at ht
          injection ht with h
          show (5 : Int) ≤ t
          omega),
   (live_skips_report_rules ⟨0, 5, 2, none, true⟩ [] (("[Live] Duration 500 Grand Total 9").toList)
      (by decide) (by decide)).2 (by decide)⟩

/-! ### C3: nonnegativity invariants -/

/-- The spec's state invariant: `stage ≥ 0`, `cumulative_total ≥ 0`,
`active_time_seconds ≥ 0`. -/
def StateInv (s : CoreState) : Prop :=
  0 ≤ s.stage ∧ 0 ≤ s.current_total ∧ 0 ≤ s.active_time_s

def intNonneg (o : Option Int) : Prop := ∀ v, o = some v → 0 ≤ v

def ratNonneg (o : Option ℚ) : Prop := ∀ v, o = some v → 0 ≤ v

/-- A raw line none of whose extracted numeric literals is negative. -/
def nonnegLine (raw : Str) : Prop :=
  intNonneg (find_int_after (sanitize raw) stageKey) ∧
  intNonneg (find_int_after (sanitize raw) totalKey) ∧
  intNonneg (find_int_after (sanitize raw) grandTotalKey) ∧
  ratNonneg (find_double_after (sanitize raw) durationKey) ∧
  ratNonneg (find_double_after (sanitize raw) activeTimeKey)

theorem update_total_inv {s : CoreState} {t : Int} (now : Str) (ch : Change)
    (hs : StateInv s) (ht : 0 ≤ t) :
    StateInv (update_total_from_live s t now ch).1 := by
  unfold update_total_from_live
  by_cases h1 : t < s.current_total
  · rw [if_pos h1]
    exact ⟨le_refl 0, ht, le_refl 0⟩
  · rw [if_neg h1]
    by_cases h2 : t > s.current_total
    · rw [if_pos h2]
      exact ⟨hs.1, ht, hs.2.2⟩
    · rw [if_neg h2]
      exact hs

theorem process_line_inv (s : CoreState) (now raw : Str)
    (hs : StateInv s) (h : nonnegLine raw) :
    StateInv (process_line s now raw).1 := by
  obtain ⟨hstg, htot, hgt, hdur, hat⟩ := h
  by_cases hemp : (sanitize raw).isEmpty = true
  · have he : process_line s now raw = (s, {}) := by simp [process_line, hemp]
    rw [he]
    exact hs
  · have hne : (sanitize raw).isEmpty = false := Bool.not_eq_true _ ▸ hemp
    by_cases hmark : strContains (sanitize raw) resetMarker = true
    · have he : process_line s now raw =
          (reset_session s, { system_reset := true, session_reset := true }) := by
        simp [process_line, hne, hmark]
      rw [he]
      exact ⟨le_refl 0, le_refl 0, le_refl 0⟩
    · have hres : strContains (sanitize raw) resetMarker = false :=
        Bool.not_eq_true _ ▸ hmark
      by_cases hlv : (strContains (sanitize raw) liveMarker
          || strContains (sanitize raw) liveMarkerUpper) = true
      · rw [process_line_eq_live s now raw hres hlv]
        unfold liveBranch
        cases hstg2 : find_int_after (sanitize raw) stageKey with
        | none =>
            simp only
            cases htot2 : find_int_after (sanitize raw) totalKey with
            | none => exact hs
            | some t => exact update_total_inv now _ hs (htot t htot2)
        | some stg =>
            simp only
            by_cases hd : stg ≠ s.stage
            · rw [if_pos hd]
              have hs2 : StateInv ({ s with stage := stg } : CoreState) :=
                ⟨hstg stg hstg2, hs.2.1, hs.2.2⟩
              cases htot2 : find_int_after (sanitize raw) totalKey with
              | none => exact hs2
              | some t => exact update_total_inv now _ hs2 (htot t htot2)
            · rw [if_neg hd]
              cases htot2 : find_int_after (sanitize raw) totalKey with
              | none => exact hs
              | some t => exact update_total_inv now _ hs (htot t htot2)
      · have hlv2 : (strContains (sanitize raw) liveMarker
            || strContains (sanitize raw) liveMarkerUpper) = false :=
          Bool.not_eq_true _ ▸ hlv
        rw [process_line_eq_report s now raw hne hres hlv2]
        unfold reportBranch
        cases hdur2 : find_double_after (sanitize raw) durationKey with
        | some d =>
            simp only
            have hs2 : StateInv ({ s with
                active_time_s := s.active_time_s + d / 1000,
                active_from_mcu := false } : CoreState) :=
              ⟨hs.1, hs.2.1,
               add_nonneg hs.2.2 (div_nonneg (hdur d hdur2) (by norm_num))⟩
            cases hgt2 : find_int_after (sanitize raw) grandTotalKey with
            | none => exact hs2
            | some g => exact update_total_inv now _ hs2 (hgt g hgt2)
        | none =>
            simp only
            cases hat2 : find_double_after (sanitize raw) activeTimeKey with
            | some a =>
                simp only
                have hs2 : StateInv ({ s with
                    active_time_s := a, active_from_mcu := true } : CoreState) :=
                  ⟨hs.1, hs.2.1, hat a hat2⟩
                cases hgt2 : find_int_after (sanitize raw) grandTotalKey with
                | none => exact hs2
                | some g => exact update_total_inv now _ hs2 (hgt g hgt2)
            | none =>
                simp only
                cases hgt2 : find_int_after (sanitize raw) grandTotalKey with
                | none => exact hs
                | some g => exact update_total_inv now _ hs (hgt g hgt2)

theorem runLines_inv (now : Str) (lines : List Str) :
    ∀ s : CoreState, (∀ l ∈ lines, nonnegLine l) → StateInv s →
      StateInv (runLines now s lines) := by
  induction lines with
  | nil => intro s _ hs; exact hs
  | cons l ls ih =>
      intro s h hs
      have h1 : StateInv (process_line s now l).1 :=
        process_line_inv s now l hs (h l (List.mem_cons_self l ls))
      have h2 : ∀ x ∈ ls, nonnegLine x := fun x hx => h x (List.mem_cons_of_mem l hx)
      simpa [runLines] using ih (process_line s now l).1 h2 h1

/-- Counterexample to C3 as stated: the decoder accepts negative
literals — from the initial state the single live line
`[Live] Stage: -3` leaves `stage = -3 < 0`. -/
theorem invariants_counterexample :
    (runLines [] CoreState.new [("[Live] Stage: -3").toList]).stage = -3 ∧
    ¬ (0 ≤ (-3 : Int)) := by
  exact ⟨by with_unfolding_all rfl, by decide⟩

/-- Claim C3 (amended): for every sequence of decoded lines starting from
the initial state in which no extracted numeric literal is negative, the
state satisfies `stage ≥ 0`, `cumulative_total ≥ 0` and
`active_time_seconds ≥ 0` after every call (every prefix of such a
sequence again satisfies the hypothesis, so every intermediate state is
covered). -/
theorem invariants_on_nonneg_lines (now : Str) (lines : List Str)
    (h : ∀ l ∈ lines, nonnegLine l) :
    StateInv (runLines now CoreState.new lines) :=
  runLines_inv now lines CoreState.new h ⟨le_refl 0, le_refl 0, le_refl 0⟩

/-- Witness for C3 (amended) on the concrete line
`[Live] Stage: 2 Total: 5`. -/
theorem invariants_on_nonneg_lines_witness :
    StateInv (runLines [] CoreState.new [("[Live] Stage: 2 Total: 5").toList]) :=
  invariants_on_nonneg_lines [] [("[Live] Stage: 2 Total: 5").toList]
    (by
      intro l hl
      rw [List.mem_singleton] at hl
      subst hl
      refine ⟨?_, ?_, ?_, ?_, ?_⟩
      · intro v hv
        rw [show find_int_after (sanitize (("[Live] Stage: 2 Total: 5").toList)) stageKey =
              some 2 from by decide] at hv
        injection hv with h2
        omega
      · intro v hv
        rw [show find_int_after (sanitize (("[Live] Stage: 2 Total: 5").toList)) totalKey =
              some 5 from by decide] at hv
        injection hv with h2
        omega
      · intro v hv
        rw [show find_int_after (sanitize (("[Live] Stage: 2 Total: 5").toList)) grandTotalKey =
              none from by decide] at hv
        exact Option.noConfusion hv
      · intro v hv
        rw [show find_double_after (sanitize (("[Live] Stage: 2 Total: 5").toList)) durationKey =
              none from by decide] at hv
        exact Option.noConfusion hv
      · intro v hv
        rw [show find_double_after (sanitize (("[Live] Stage: 2 Total: 5").toList)) activeTimeKey =
              none from by decide] at hv
        exact Option.noConfusion hv)

/-! ### C4: the numeric extractor contract -/

/-- Modelled from the spec (amended reading of §4.2): after the keyword,
skip characters until the first digit or sign starts the literal, then
take the following digit run. -/
def captureIntSpec (rest : Str) : Str :=
  match rest.dropWhile (fun c => !(c.isDigit || c == '+' || c == '-')) with
  | [] => []
  | c :: t => c :: t.takeWhile Char.isDigit

/-- Modelled from the spec (amended reading of §4.2): the float variant
also lets `.` start the literal and consumes digits and dots (without a
one-dot limit — a second dot is not a stopping character). -/
def captureFloatSpec (rest : Str) : Str :=
  match rest.dropWhile (fun c => !(c.isDigit || c == '.' || c == '+' || c == '-')) with
  | [] => []
  | c :: t => c :: t.takeWhile (fun x => x.isDigit || x == '.')

/-- Modelled from the spec (amended): first keyword occurrence, the
skip/take capture, then the range-checked integer parse; not-found when
the keyword is absent, nothing was captured, or the literal fails to
parse. -/
def find_int_after_spec (src key : Str) : Option Int :=
  match findSub src key with
  | none => none
  | some idx =>
      let lit := captureIntSpec (src.drop (idx + key.length))
      if lit.isEmpty then none else parseI32 lit

/-- Modelled from the spec (amended): float variant of
`find_int_after_spec`. -/
def find_double_after_spec (src key : Str) : Option ℚ :=
  match findSub src key with
  | none => none
  | some idx =>
      let lit := captureFloatSpec (src.drop (idx + key.length))
      if lit.isEmpty then none else parseF64 lit

theorem scanInt_true_eq (l : Str) : scanInt true l = l.takeWhile Char.isDigit := by
  induction l with
  | nil => rfl
  | cons c t ih =>
      by_cases h : c.isDigit = true
      · simp [scanInt, List.takeWhile_cons, h, ih]
      · simp [scanInt, List.takeWhile_cons, h]

theorem scanInt_false_eq (l : Str) : scanInt false l = captureIntSpec l := by
  induction l with
  | nil => rfl
  | cons c t ih =>
      by_cases h : (c.isDigit || c == '+' || c == '-') = true
      · simp only [Bool.or_eq_true, beq_iff_eq] at h
        rcases h with (h | h) | h <;>
          simp [scanInt, captureIntSpec, List.dropWhile_cons, h, scanInt_true_eq]
      · simp only [Bool.or_eq_true, beq_iff_eq, not_or] at h
        obtain ⟨⟨h1, h2⟩, h3⟩ := h
        simp [scanInt, captureIntSpec, List.dropWhile_cons,
              Bool.not_eq_true _ ▸ h1, h2, h3, ih]

theorem scanFloat_true_eq (l : Str) :
    scanFloat true l = l.takeWhile (fun x => x.isDigit || x == '.') := by
  induction l with
  | nil => rfl
  | cons c t ih =>
      by_cases h : (c.isDigit || c == '.') = true
      · simp [scanFloat, List.takeWhile_cons, h, ih]
      · simp [scanFloat, List.takeWhile_cons, h]

theorem scanFloat_false_eq (l : Str) : scanFloat false l = captureFloatSpec l := by
  induction l with
  | nil => rfl
  | cons c t ih =>
      by_cases h : (c.isDigit || c == '.' || c == '+' || c == '-') = true
      · simp only [Bool.or_eq_true, beq_iff_eq] at h
        rcases h with ((h | h) | h) | h <;>
          simp [scanFloat, captureFloatSpec, List.dropWhile_cons, h, scanFloat_true_eq]
      · simp only [Bool.or_eq_true, beq_iff_eq, not_or] at h
        obtain ⟨⟨⟨h1, h2⟩, h3⟩, h4⟩ := h
        simp [scanFloat, captureFloatSpec, List.dropWhile_cons,
              Bool.not_eq_true _ ▸ h1, h2, h3, h4, ih]

/-- Claim C4 (amended): both extractor variants implement exactly the
skip-to-literal-start / take-literal-run / parse contract —
`find_int_after` and `find_double_after` coincide with the spec-level
formulation (first keyword occurrence; skip until a digit, a sign, or —
float variant only — a dot; take the run of digits, and for the float
variant dots; a single sign only as the very first captured character;
not-found when the keyword is absent, nothing was captured, or the
captured literal fails to parse — integers outside the 32-bit range,
float literals with more than one dot). -/
theorem extractor_matches_spec_contract (src key : Str) :
    find_int_after src key = find_int_after_spec src key ∧
    find_double_after src key = find_double_after_spec src key := by
  constructor
  · unfold find_int_after find_int_after_spec
    cases findSub src key with
    | none => rfl
    | some idx => simp [scanInt_false_eq]
  · unfold find_double_after find_double_after_spec
    cases findSub src key with
    | none => rfl
    | some idx => simp [scanFloat_false_eq]

/-- Counterexample to C4 as stated: not-found does NOT happen exactly
when the keyword is absent or no digit was found.  `Total: 3000000000`
has the keyword and a captured digit run yet yields not-found (the value
overflows `i32`); `Duration 1.2.3` has digits yet yields not-found (the
scanner consumes both dots and the float parse then fails, instead of
stopping at the second dot); and `Duration .5` yields 1/2 — the dot can
start the literal, which the claim's digit-or-sign rule omits. -/
theorem extractor_contract_counterexample :
    find_int_after (("Total: 3000000000").toList) totalKey = none ∧
    strContains (("Total: 3000000000").toList) totalKey = true ∧
    (scanInt false ((("Total: 3000000000").toList).drop totalKey.length)).any
      Char.isDigit = true ∧
    find_double_after (("Duration 1.2.3").toList) durationKey = none ∧
    strContains (("Duration 1.2.3").toList) durationKey = true ∧
    (scanFloat false ((("Duration 1.2.3").toList).drop durationKey.length)).any
      Char.isDigit = true ∧
    find_double_after (("Duration .5").toList) durationKey = some (1 / 2) := by
  refine ⟨by decide, by decide, by decide, ?_, by decide, by decide, ?_⟩
  · with_unfolding_all rfl
  · with_unfolding_all rfl
